import Mathlib

/-!
Shallow embedding of `src/generate_bree_synthetic_data.py`, the generative
simulation engine producing the synthetic cash-advance dataset
(users, experiment assignments, funnel session events, bank transactions,
loan lifecycle records).

Modelling conventions, used throughout:
* Timestamps are rational numbers of days since 2025-01-01 00:00
  (so `datetime(2025,1,1)` is `0`, `datetime(2025,7,31)` is `211`,
  `timedelta(hours=h)` is `h / 24`).  `2025-03-15` is day `73`,
  `2025-06-30` day `180`, `2025-04-01` day `90`, `2025-07-15` day `195`.
* Python floats are modelled as `ℚ` (exact real arithmetic); `round(x, 2)`
  is `round2` below.  Python rounds half-to-even while `round2` rounds
  half-up; no statement proved here depends on an exact half-cent tie.
* Every pseudo-random draw of the source becomes an explicit oracle
  argument (a field of a draw structure, or a function from an index to a
  value), so each generator is a deterministic function of its draws and
  the theorems quantify over all draw values.
* Python's empty-string `""` for an absent timestamp becomes `none`.
-/

namespace Bree

/-- `datetime(2025, 1, 1)`, as days since 2025-01-01. -/
def startDate : ℚ := 0

/-- `datetime(2025, 7, 31)`, as days since 2025-01-01. -/
def endDate : ℚ := 211

/-- Python `round(x, 2)`: round to the nearest cent, here as
`⌊100x + 1/2⌋ / 100` via the executable `Rat.floor`.
(Tie-breaking: half-up here, half-to-even in Python; no proved statement
depends on an exact half-cent tie.) -/
def round2 (x : ℚ) : ℚ := ((100 * x + 1/2).floor : ℤ) / 100

/-- The executable `Rat.floor` agrees with Mathlib's `Int.floor`. -/
theorem rat_floor_eq_floor (q : ℚ) : q.floor = ⌊q⌋ := by
  rw [Rat.floor_def', Rat.floor_def]

/-- `round2` is cent-rounding in terms of Mathlib's `round`. -/
theorem round2_eq (x : ℚ) : round2 x = (round (100 * x) : ℤ) / 100 := by
  unfold round2
  rw [rat_floor_eq_floor, round_eq]

/-- `np.clip(x, lo, hi)`. -/
def clip (x lo hi : ℚ) : ℚ := min (max x lo) hi

/-! ## Experiment assignment engine (`assignments` loop, source lines 61-84) -/

/-- One entry of the `EXPERIMENTS` list.  The source's `"end"` key is the
field `stop` (`end` is a Lean keyword). -/
structure Experiment where
  name : String
  start : ℚ
  stop : ℚ
  variants : List String
  deriving DecidableEq

/-- The fixed `EXPERIMENTS` list, windows translated to day numbers:
PriceTest_2025Q2 runs 2025-03-15 .. 2025-06-30 (days 73 .. 180),
TipPrompt_2025Q2 runs 2025-04-01 .. 2025-07-15 (days 90 .. 195). -/
def EXPERIMENTS : List Experiment :=
  [⟨"PriceTest_2025Q2", 73, 180, ["A", "B"]⟩,
   ⟨"TipPrompt_2025Q2", 90, 195, ["control", "persuasive", "social_proof"]⟩]

/-- One row of `ab_assignments.csv`. -/
structure Assignment where
  assignment_id : String
  user_id : ℕ
  experiment_name : String
  variant : String
  assigned_at : ℚ
  deriving DecidableEq

/-- The inner body of the assignments loop for one user: for each
experiment whose window contains `first_seen` (the user's signup
timestamp) emit one row.  `pick j` is the oracle for
`np.random.choice(exp["variants"])` at experiment index `j`. -/
def assignmentsForUser (uid : ℕ) (first_seen : ℚ) (pick : ℕ → String) :
    List Assignment :=
  EXPERIMENTS.enum.filterMap (fun je =>
    if je.2.start ≤ first_seen ∧ first_seen ≤ je.2.stop then
      some { assignment_id := toString uid ++ "-" ++ je.2.name,
             user_id := uid,
             experiment_name := je.2.name,
             variant := pick je.1,
             assigned_at := first_seen }
    else none)

/-- C6: an assignment row for (user, experiment) exists iff the user's
signup timestamp lies in the closed window `[start, stop]`, and at most
one assignment row exists per (user, experiment) pair. -/
theorem assignment_window_iff (uid : ℕ) (signup : ℚ) (pick : ℕ → String)
    (e : Experiment) (he : e ∈ EXPERIMENTS) :
    ((∃ a ∈ assignmentsForUser uid signup pick,
        a.experiment_name = e.name) ↔ e.start ≤ signup ∧ signup ≤ e.stop) ∧
    ((assignmentsForUser uid signup pick).filter
        (fun a => a.experiment_name = e.name)).length ≤ 1 := by
  by_cases h1 : (73 : ℚ) ≤ signup ∧ signup ≤ 180 <;>
    by_cases h2 : (90 : ℚ) ≤ signup ∧ signup ≤ 195 <;>
      rcases (by simpa [EXPERIMENTS] using he :
          e = EXPERIMENTS[0] ∨ e = EXPERIMENTS[1]) with rfl | rfl <;>
        simp [assignmentsForUser, EXPERIMENTS, List.enum, h1, h2,
          List.filterMap, List.filter]

/-- Witness for C6 at a concrete input: a user signing up on day 100
(2025-04-11) is inside the PriceTest_2025Q2 window. -/
theorem assignment_window_iff_witness :
    (73 : ℚ) ≤ 100 ∧ (100 : ℚ) ≤ 180 :=
  (assignment_window_iff 1 100 (fun _ => "A") ⟨"PriceTest_2025Q2", 73, 180,
      ["A", "B"]⟩ (by simp [EXPERIMENTS])).1.mp
    ⟨{ assignment_id := "1-PriceTest_2025Q2", user_id := 1,
       experiment_name := "PriceTest_2025Q2", variant := "A",
       assigned_at := 100 }, by decide, rfl⟩

/-! ## Funnel event simulator (`sessions` loop, source lines 86-116) -/

/-- The fixed `EVENTS` list of (event name, continuation probability). -/
def EVENTS : List (String × ℚ) :=
  [("app_open", 1),
   ("view_onboarding", 95/100),
   ("link_bank_start", 80/100),
   ("link_bank_success", 72/100),
   ("start_advance_request", 60/100),
   ("submit_advance_request", 52/100),
   ("approved", 40/100),
   ("disbursed", 39/100)]

/-- The canonical funnel vocabulary, in order. -/
def funnelOrder : List String := EVENTS.map Prod.fst

/-- One row of `sessions.csv`.  `event_id`'s random tag is the oracle
`tag`; `properties_json` is the constant `"{}"` and is omitted. -/
structure SessionEvent where
  event_id : String
  user_id : ℕ
  session_id : String
  ts : ℚ
  event_name : String
  screen : String
  deriving DecidableEq

/-- The screen label rule of the source:
`"onboarding" if "bank" in ev else ("loan" if "request" in ev or
"disbursed" in ev else "home")`. -/
def screenOf (ev : String) : String :=
  if ev.containsSubstr "bank" then "onboarding"
  else if ev.containsSubstr "request" || ev.containsSubstr "disbursed" then "loan"
  else "home"

/-- The record appended for event `ev` of user `uid`; `t` is the signup
timestamp, `minutes i` the oracle for `random.randint(0, 120)` and
`tag i` the oracle for the `random.randint(1, 10**9)` id tag at stage `i`. -/
def mkSessionEvent (uid : ℕ) (t : ℚ) (minutes tag : ℕ → ℕ) (i : ℕ)
    (ev : String) : SessionEvent :=
  { event_id := toString uid ++ "-" ++ ev ++ "-" ++ toString (tag i),
    user_id := uid,
    session_id := "sess-" ++ toString uid,
    ts := t + (minutes i : ℚ) / 1440,
    event_name := ev,
    screen := screenOf ev }

/-- The per-user event loop: walk the stage list in order carrying the
`progressed` flag; a stage is emitted when `progressed` and its Bernoulli
draw `rand i < p` passes, otherwise `progressed` turns (and stays) false.
`rand i` is the oracle for the `np.random.rand()` call at stage `i`. -/
def sessionsAux (uid : ℕ) (t : ℚ) (rand : ℕ → ℚ) (minutes tag : ℕ → ℕ) :
    List (String × ℚ) → ℕ → Bool → List SessionEvent
  | [], _, _ => []
  | (ev, p) :: rest, i, progressed =>
    if progressed ∧ rand i < p then
      mkSessionEvent uid t minutes tag i ev ::
        sessionsAux uid t rand minutes tag rest (i + 1) true
    else
      sessionsAux uid t rand minutes tag rest (i + 1) false

/-- All session events for one user (the body of the `for _, u in
users_df.iterrows()` loop with `t = signup`). -/
def sessionsForUser (uid : ℕ) (signup : ℚ) (rand : ℕ → ℚ)
    (minutes tag : ℕ → ℕ) : List SessionEvent :=
  sessionsAux uid signup rand minutes tag EVENTS 0 true

/-- Once `progressed` is false, no event is ever emitted again. -/
theorem sessionsAux_false (uid : ℕ) (t : ℚ) (rand : ℕ → ℚ)
    (minutes tag : ℕ → ℕ) (evs : List (String × ℚ)) (i : ℕ) :
    sessionsAux uid t rand minutes tag evs i false = [] := by
  induction evs generalizing i with
  | nil => rfl
  | cons e rest ih => simp [sessionsAux, ih]

/-- The names emitted from any suffix of the stage list form an initial
segment of that suffix's names. -/
theorem sessionsAux_take (uid : ℕ) (t : ℚ) (rand : ℕ → ℚ)
    (minutes tag : ℕ → ℕ) (evs : List (String × ℚ)) (i : ℕ) :
    ∃ n, (sessionsAux uid t rand minutes tag evs i true).map
        SessionEvent.event_name = (evs.map Prod.fst).take n := by
  induction evs generalizing i with
  | nil => exact ⟨0, rfl⟩
  | cons e rest ih =>
    by_cases h : rand i < e.2
    · obtain ⟨n, hn⟩ := ih (i + 1)
      exact ⟨n + 1, by simp [sessionsAux, h, mkSessionEvent, hn]⟩
    · exact ⟨0, by simp [sessionsAux, h, sessionsAux_false]⟩

/-- C2: for every user (any draws), the emitted event names are a prefix
of the canonical funnel order — no event is present unless all
logically-prior events are, and after one Bernoulli failure nothing more
is emitted. -/
theorem funnel_names_take (uid : ℕ) (signup : ℚ) (rand : ℕ → ℚ)
    (minutes tag : ℕ → ℕ) :
    ∃ n, (sessionsForUser uid signup rand minutes tag).map
        SessionEvent.event_name = funnelOrder.take n :=
  sessionsAux_take uid signup rand minutes tag EVENTS 0

/-! ## Transaction ledger simulator (`gen_transactions_for_user`,
source lines 118-165) -/

/-- One row of `transactions.csv`.  `posted_date` is the integer day
index (the source writes `day.date().isoformat()`; in `txn_id` it writes
`int(day.timestamp())`, here also the day index). -/
structure Txn where
  txn_id : String
  user_id : ℕ
  posted_date : ℤ
  amount : ℚ
  direction : String
  mcc : String
  category : String
  balance_after : ℚ
  is_payroll : ℕ
  deriving DecidableEq, Inhabited

/-- Oracle for one expense debit: the `np.random.lognormal(3.2, 0.7)`
draw, the category choice, and the `random.randint(1, 1e6)` id tag. -/
structure Expense where
  draw : ℚ
  cat : String
  tag : ℕ
  deriving DecidableEq

/-- Oracles for one simulated day: the `np.random.normal(950, 220)`
payroll draw (used only if payroll fires that day) and the day's expense
list, whose length is the `np.random.poisson(1.2)` draw `n_out`. -/
structure DayDraws where
  payroll_draw : ℚ
  expenses : List Expense

/-- The `paygap` dictionary
`{"weekly":7, "biweekly":14, "semimonthly":15, "monthly":30, "unknown":14}`.
(Any other key raises `KeyError` in the source and is unreachable, since
`payroll_frequency` is always drawn from `PAYFREQ`; the catch-all returns
14 like `"unknown"`.) -/
def payGap (pfreq : String) : ℤ :=
  if pfreq = "weekly" then 7
  else if pfreq = "biweekly" then 14
  else if pfreq = "semimonthly" then 15
  else if pfreq = "monthly" then 30
  else 14

/-- The inner `for _ in range(n_out)` expense loop of one day: thread the
running balance through the day's expense draws, returning the emitted
records and the final balance. -/
def genExpenses (uid : ℕ) (day : ℤ) : ℚ → List Expense → List Txn × ℚ
  | balance, [] => ([], balance)
  | balance, e :: rest =>
    let amt := max 5 e.draw
    let balance1 := balance - amt
    let t : Txn :=
      { txn_id := "t-" ++ toString uid ++ "-" ++ toString day ++ "-out-" ++
          toString e.tag,
        user_id := uid,
        posted_date := day,
        amount := round2 (-amt),
        direction := "outflow",
        mcc := "0000",
        category := e.cat,
        balance_after := round2 balance1,
        is_payroll := 0 }
    let pr := genExpenses uid day balance1 rest
    (t :: pr.1, pr.2)

/-- The `while day <= end` loop.  `fuel` bounds the iteration count (the
caller passes 212, the exact number of days from 2025-01-01 through
2025-07-31); the `211 < day` guard is the loop condition itself.  State:
current `day`, running `balance`, and `nextPay` (the next payroll day). -/
def genDays (uid : ℕ) (paygap : ℤ) (draws : ℤ → DayDraws) :
    ℕ → ℤ → ℚ → ℤ → List Txn
  | 0, _, _, _ => []
  | fuel + 1, day, balance, nextPay =>
    if 211 < day then []
    else
      let d := draws day
      if nextPay ≤ day then
        let payroll_amt := max 400 d.payroll_draw
        let balance1 := balance + payroll_amt
        let payTxn : Txn :=
          { txn_id := "t-" ++ toString uid ++ "-" ++ toString day ++ "-in",
            user_id := uid,
            posted_date := day,
            amount := round2 payroll_amt,
            direction := "inflow",
            mcc := "6011",
            category := "payroll",
            balance_after := round2 balance1,
            is_payroll := 1 }
        let pr := genExpenses uid day balance1 d.expenses
        payTxn :: pr.1 ++
          genDays uid paygap draws fuel (day + 1) pr.2 (nextPay + paygap)
      else
        let pr := genExpenses uid day balance d.expenses
        pr.1 ++ genDays uid paygap draws fuel (day + 1) pr.2 nextPay

/-- `gen_transactions_for_user`: initial balance `max 0 init_draw` (the
`np.random.normal(200, 150)` draw), first payroll at
`signup + random.randint(0, paygap)` days (`payOffset` is that draw),
then the day loop over the full window. -/
def gen_transactions_for_user (uid : ℕ) (pfreq : String) (signupDay : ℤ)
    (init_draw : ℚ) (payOffset : ℤ) (draws : ℤ → DayDraws) : List Txn :=
  genDays uid (payGap pfreq) draws 212 0 (max 0 init_draw)
    (signupDay + payOffset)

/-- The ledger's exact-balance chain: starting from exact balance `b`,
each record's `amount` and `balance_after` are the cent-roundings of an
exact signed amount and of the exactly-updated running balance, ending at
exact balance `b'`. -/
def ExactChainTo : ℚ → List Txn → ℚ → Prop
  | b, [], b' => b' = b
  | b, t :: ts, b' => ∃ a : ℚ, t.amount = round2 a ∧
      t.balance_after = round2 (b + a) ∧ ExactChainTo (b + a) ts b'

/-- Recorded continuity up to one cent between two consecutive records. -/
def centsClose (t1 t2 : Txn) : Prop :=
  |t2.balance_after - (t1.balance_after + t2.amount)| ≤ 1/100

theorem exactChainTo_append {l1 l2 : List Txn} {b m b' : ℚ}
    (h1 : ExactChainTo b l1 m) (h2 : ExactChainTo m l2 b') :
    ExactChainTo b (l1 ++ l2) b' := by
  induction l1 generalizing b with
  | nil =>
    have hm : m = b := h1
    subst hm
    exact h2
  | cons t ts ih =>
    obtain ⟨a, ha, hb, hrest⟩ := h1
    exact ⟨a, ha, hb, ih hrest⟩

theorem genExpenses_chain (uid : ℕ) (day : ℤ) :
    ∀ (exps : List Expense) (b : ℚ),
      ExactChainTo b (genExpenses uid day b exps).1
        (genExpenses uid day b exps).2 := by
  intro exps
  induction exps with
  | nil => intro b; rfl
  | cons e rest ih =>
    intro b
    simp only [genExpenses]
    refine ⟨-(max 5 e.draw), rfl, by rw [← sub_eq_add_neg], ?_⟩
    rw [← sub_eq_add_neg]
    exact ih (b - max 5 e.draw)

theorem genDays_chain (uid : ℕ) (paygap : ℤ) (draws : ℤ → DayDraws) :
    ∀ (fuel : ℕ) (day : ℤ) (b : ℚ) (nextPay : ℤ),
      ∃ b', ExactChainTo b (genDays uid paygap draws fuel day b nextPay) b' := by
  intro fuel
  induction fuel with
  | zero => exact fun _ b _ => ⟨b, rfl⟩
  | succ fuel ih =>
    intro day b nextPay
    rw [genDays]
    by_cases hd : 211 < day
    · exact ⟨b, by simp [hd, ExactChainTo]⟩
    · by_cases hp : nextPay ≤ day
      · obtain ⟨b', hb'⟩ := ih (day + 1)
          (genExpenses uid day (b + max 400 (draws day).payroll_draw)
            (draws day).expenses).2 (nextPay + paygap)
        refine ⟨b', ?_⟩
        simp only [hd, hp, if_true, if_false, ite_true, ite_false]
        exact ⟨max 400 (draws day).payroll_draw, rfl, rfl,
          exactChainTo_append (genExpenses_chain uid day _ _) hb'⟩
      · obtain ⟨b', hb'⟩ := ih (day + 1)
          (genExpenses uid day b (draws day).expenses).2 nextPay
        refine ⟨b', ?_⟩
        simp only [hd, hp, if_true, if_false, ite_true, ite_false]
        exact exactChainTo_append (genExpenses_chain uid day _ _) hb'

/-- Cent-rounding moves a value by at most half a cent. -/
theorem abs_round2_sub (x : ℚ) : |round2 x - x| ≤ 1/200 := by
  have h := abs_sub_round (100 * x)
  rw [abs_sub_comm] at h
  have : round2 x - x = ((round (100 * x) : ℚ) - 100 * x) / 100 := by
    rw [round2_eq]; ring
  rw [this, abs_div, abs_of_pos (by norm_num : (0:ℚ) < 100)]
  linarith

/-- The sum of two cent-rounded values differs from the cent-rounding of
the sum by at most one cent (the discrepancy is a whole number of cents
of magnitude at most 3/2 cents, hence at most one cent). -/
theorem round2_add_close (B a : ℚ) :
    |round2 (B + a) - (round2 B + round2 a)| ≤ 1/100 := by
  have h1 := abs_round2_sub (B + a)
  have h2 := abs_round2_sub B
  have h3 := abs_round2_sub a
  set z : ℤ := round (100 * (B + a)) - round (100 * B) - round (100 * a) with hz
  have hzq : round2 (B + a) - (round2 B + round2 a) = (z : ℚ) / 100 := by
    simp only [hz, round2_eq]; push_cast; ring
  have hb : |(z : ℚ) / 100| ≤ 3/200 := by
    rw [← hzq]
    calc |round2 (B + a) - (round2 B + round2 a)|
        = |(round2 (B + a) - (B + a)) - (round2 B - B) - (round2 a - a)| := by
          ring_nf
      _ ≤ 3/200 := by
          have := abs_sub (round2 (B + a) - (B + a) - (round2 B - B))
            (round2 a - a)
          have h4 := abs_sub (round2 (B + a) - (B + a)) (round2 B - B)
          calc |(round2 (B + a) - (B + a)) - (round2 B - B) - (round2 a - a)|
              ≤ |(round2 (B + a) - (B + a)) - (round2 B - B)| + |round2 a - a| :=
                abs_sub _ _
            _ ≤ |round2 (B + a) - (B + a)| + |round2 B - B| + |round2 a - a| := by
                have := abs_sub (round2 (B + a) - (B + a)) (round2 B - B)
                linarith
            _ ≤ 3/200 := by linarith
  have hz1 : |z| ≤ 1 := by
    by_contra hc
    push_neg at hc
    have h2le : (2 : ℚ) ≤ |(z : ℚ)| := by
      rw [← Int.cast_abs]
      exact_mod_cast hc
    rw [abs_div, abs_of_pos (by norm_num : (0:ℚ) < 100)] at hb
    linarith
  rw [hzq, abs_div, abs_of_pos (by norm_num : (0:ℚ) < 100), ← Int.cast_abs]
  have : ((|z| : ℤ) : ℚ) ≤ 1 := by exact_mod_cast hz1
  linarith

/-- An exact-balance chain has recorded continuity within one cent at
every consecutive pair. -/
theorem exactChainTo_chain' {l : List Txn} {b b' : ℚ}
    (h : ExactChainTo b l b') : List.Chain' centsClose l := by
  induction l generalizing b with
  | nil => exact List.chain'_nil
  | cons t1 ts ih =>
    obtain ⟨a1, _, hb1, hrest⟩ := h
    cases ts with
    | nil => simp
    | cons t2 ts' =>
      have hch := ih hrest
      obtain ⟨a2, ha2, hb2, -⟩ := hrest
      refine List.Chain'.cons ?_ hch
      show |t2.balance_after - (t1.balance_after + t2.amount)| ≤ 1/100
      rw [hb1, hb2, ha2]
      exact round2_add_close (b + a1) a2

/-- The first record of an exact-balance chain satisfies the seed
equation within one cent. -/
theorem exactChainTo_head {l : List Txn} {b b' : ℚ}
    (h : ExactChainTo b l b') :
    ∀ t ∈ l.head?, |t.balance_after - (b + t.amount)| ≤ 1/100 := by
  cases l with
  | nil => intro t ht; simp at ht
  | cons t1 ts =>
    intro t ht
    obtain rfl : t1 = t := by simpa using ht
    obtain ⟨a, ha, hb, _⟩ := h
    rw [ha, hb]
    have h1 := abs_round2_sub (b + a)
    have h2 := abs_round2_sub a
    calc |round2 (b + a) - (b + round2 a)|
        = |(round2 (b + a) - (b + a)) - (round2 a - a)| := by ring_nf
      _ ≤ |round2 (b + a) - (b + a)| + |round2 a - a| := abs_sub _ _
      _ ≤ 1/100 := by linarith

/-- C1 (amended): the generator maintains an exactly-continuous running
balance, and the recorded `amount` / `balance_after` fields are its
cent-roundings; consequently recorded continuity
`balance_after[k] = balance_after[k-1] + amount[k]` holds within one cent
(but not exactly, see the counterexample), and the first record's
`balance_after` is within one cent of the initial balance plus its
amount. -/
theorem balance_continuity_amended (uid : ℕ) (pfreq : String)
    (signupDay : ℤ) (init_draw : ℚ) (payOffset : ℤ) (draws : ℤ → DayDraws) :
    (∃ b', ExactChainTo (max 0 init_draw)
        (gen_transactions_for_user uid pfreq signupDay init_draw payOffset
          draws) b') ∧
    List.Chain' centsClose
      (gen_transactions_for_user uid pfreq signupDay init_draw payOffset
        draws) ∧
    ∀ t ∈ (gen_transactions_for_user uid pfreq signupDay init_draw payOffset
        draws).head?,
      |t.balance_after - (max 0 init_draw + t.amount)| ≤ 1/100 := by
  obtain ⟨b', hb'⟩ := genDays_chain uid (payGap pfreq) draws 212 0
    (signupDay + payOffset) (b := max 0 init_draw)
  exact ⟨⟨b', hb'⟩, exactChainTo_chain' hb', exactChainTo_head hb'⟩

/-- Concrete draws for the C1 counterexample: on day 0 a payroll draw of
950.003 and a single expense draw of 5.996; nothing else. -/
def c1Draws : ℤ → DayDraws := fun day =>
  if day = 0 then ⟨950003/1000, [⟨5996/1000, "groceries", 1⟩]⟩ else ⟨0, []⟩

/-- The transaction rows those draws generate (user 1, weekly payroll,
signup day 0, initial balance draw 0, payroll offset 0). -/
def c1Rows : List Txn := gen_transactions_for_user 1 "weekly" 0 0 0 c1Draws

unseal Rat.mul Rat.inv Rat.add Rat.sub in
/-- C1 counterexample: with the draws of `c1Draws`, record 0 (payroll
950.003) is recorded as amount 950.00 / balance 950.00 and record 1
(expense 5.996) as amount −6.00 / balance 944.01, so the recorded
`balance_after` of record 1 differs from the recorded `balance_after` of
record 0 plus the recorded amount of record 1 (944.01 ≠ 950.00 − 6.00). -/
theorem balance_continuity_counterexample :
    (c1Rows[0]!).amount = 950 ∧ (c1Rows[0]!).balance_after = 950 ∧
    (c1Rows[1]!).amount = -6 ∧ (c1Rows[1]!).balance_after = 94401/100 ∧
    (c1Rows[1]!).balance_after ≠
      (c1Rows[0]!).balance_after + (c1Rows[1]!).amount := by
  decide

unseal Rat.mul Rat.inv Rat.add Rat.sub in
/-- Witness for C1's amended theorem at the concrete input `c1Draws`. -/
theorem balance_continuity_amended_witness :
    |(c1Rows[0]!).balance_after - (max (0:ℚ) 0 + (c1Rows[0]!).amount)| ≤
      1/100 :=
  (balance_continuity_amended 1 "weekly" 0 0 0 c1Draws).2.2 (c1Rows[0]!)
    (by decide)

/-! ## Loan lifecycle simulator (`loan_rows_for_user`, source lines
174-261).  Each local variable of the source function becomes a
definition of the same name over a `LoanCtx` (the user row, the two
experiment variants in effect, the loan index `i`, and the loan's random
draws). -/

/-- The fields of a `users.csv` row read by `loan_rows_for_user`. -/
structure UserRow where
  user_id : ℕ
  signup_at : ℚ
  device_os : String
  baseline_risk_score : ℚ
  deriving DecidableEq

/-- Oracles for the random draws of one loan iteration.  (In the source
some draws are only consumed on some branches — e.g. the fee noise only
for variant "B", the tip choice only when the tip Bernoulli passes; an
unconsumed field is simply ignored.) -/
structure LoanDraws where
  /-- `int(np.random.exponential(25))` (a nonnegative integer). -/
  e1 : ℕ
  /-- `int(np.random.exponential(18))` (a nonnegative integer). -/
  e2 : ℕ
  /-- `np.random.normal(140, 60)`. -/
  amount_draw : ℚ
  /-- `np.random.rand()` for the approval Bernoulli. -/
  approve_rand : ℚ
  /-- `np.random.exponential(12)` hours (nonnegative). -/
  approve_delay : ℚ
  /-- `np.random.exponential(6)` hours (nonnegative). -/
  disburse_delay : ℚ
  /-- `np.random.normal(0.4, 0.2)`. -/
  fee_noise : ℚ
  /-- `np.random.choice([0.0, 1.99, 2.99], p=[0.45,0.35,0.20])`. -/
  instant_choice : ℚ
  /-- `np.random.rand()` for the tip Bernoulli. -/
  tip_rand : ℚ
  /-- `np.random.choice([1,2,3,5,7], p=...)`. -/
  tip_choice : ℚ
  /-- `np.random.rand()` for the instant opt-in Bernoulli. -/
  instant_rand : ℚ
  /-- `np.random.rand()` for the default Bernoulli. -/
  default_rand : ℚ
  /-- `int(np.random.normal(1.4, 2.0))` (may be negative). -/
  late_draw : ℤ
  /-- `int(np.random.normal(20, 7))`. -/
  late_default_draw : ℤ
  /-- `np.random.uniform(0.6, 0.95)`. -/
  writeoff_frac : ℚ
  /-- `np.random.rand()` for autopay enrolment. -/
  autopay_rand : ℚ
  deriving DecidableEq

/-- Context of one iteration of the `for i in range(n_loans)` loop:
user row `u`, price variant `vp`, tip variant `vt`, loan index `i`,
and this iteration's draws `d`. -/
structure LoanCtx where
  u : UserRow
  vp : String
  vt : String
  i : ℕ
  d : LoanDraws
  deriving DecidableEq

/-- `requested_at = signup + timedelta(days=int(exponential(25)) +
i*max(7, int(exponential(18))))`. -/
def requested_at (c : LoanCtx) : ℚ :=
  c.u.signup_at + ((c.d.e1 + c.i * max 7 c.d.e2 : ℕ) : ℚ)

/-- `amount = float(np.clip(np.random.normal(140, 60), 40, 350))`. -/
def amount (c : LoanCtx) : ℚ := clip c.d.amount_draw 40 350

/-- `base_approve_p = 0.82 - 0.6*risk + 0.03*(device_os == "ios")`. -/
def base_approve_p (c : LoanCtx) : ℚ :=
  82/100 - 6/10 * c.u.baseline_risk_score +
    3/100 * (if c.u.device_os = "ios" then 1 else 0)

/-- The clamped approval probability used in the Bernoulli test:
`max(0.05, min(0.95, base_approve_p))`. -/
def approve_p (c : LoanCtx) : ℚ := max (5/100) (min (95/100) (base_approve_p c))

/-- `approved = np.random.rand() < max(0.05, min(0.95, base_approve_p))`. -/
def approved (c : LoanCtx) : Bool := decide (c.d.approve_rand < approve_p c)

/-- `approved_at = requested_at + timedelta(hours=exponential(12)) if
approved else ""`. -/
def approved_at (c : LoanCtx) : Option ℚ :=
  if approved c then some (requested_at c + c.d.approve_delay / 24) else none

/-- `disbursed_at = approved_at + timedelta(hours=exponential(6)) if
approved else ""` (when `approved`, `approved_at` is a datetime). -/
def disbursed_at (c : LoanCtx) : Option ℚ :=
  if approved c then (approved_at c).map (fun t => t + c.d.disburse_delay / 24)
  else none

/-- `due_date = (disbursed_at + timedelta(days=14)).date().isoformat() if
approved else ""`; `.date()` truncates to the calendar day, i.e. the
floor of the day number. -/
def due_date (c : LoanCtx) : Option ℤ :=
  if approved c then (disbursed_at c).map (fun t => (t + 14).floor) else none

/-- Variant-"B" fee: `round(np.clip(0.01*amount + normal(0.4,0.2), 0, 6.0), 2)`;
variant "A" is zero-fee. -/
def fee (c : LoanCtx) : ℚ :=
  if c.vp = "A" then 0
  else round2 (clip (1/100 * amount c + c.d.fee_noise) 0 6)

/-- `instant_fee`: 0 for variant "A", otherwise the rounded draw from
`[0.0, 1.99, 2.99]`. -/
def instant_fee (c : LoanCtx) : ℚ :=
  if c.vp = "A" then 0 else round2 c.d.instant_choice

/-- `tip_uplift = {"control":0.00, "persuasive":0.06, "social_proof":0.03}[v_tip]`
(any other key raises `KeyError` and is unreachable; the catch-all is 0). -/
def tip_uplift (vt : String) : ℚ :=
  if vt = "control" then 0
  else if vt = "persuasive" then 6/100
  else if vt = "social_proof" then 3/100
  else 0

/-- `tip_prob = np.clip(0.12 + tip_uplift - 0.10*risk, 0.01, 0.4)`
(only evaluated when approved). -/
def tip_prob (c : LoanCtx) : ℚ :=
  clip (12/100 + tip_uplift c.vt - 1/10 * c.u.baseline_risk_score)
    (1/100) (4/10)

/-- `tip`: 0 unless approved and the tip Bernoulli passes, in which case
the rounded denomination choice. -/
def tip (c : LoanCtx) : ℚ :=
  if approved c && decide (c.d.tip_rand < tip_prob c) then
    round2 c.d.tip_choice
  else 0

/-- `instant_opt_in = approved and (instant_fee>0) and
(np.random.rand() < (0.32 - 0.18*risk))`. -/
def instant_opt_in (c : LoanCtx) : Bool :=
  approved c && decide (0 < instant_fee c) &&
    decide (c.d.instant_rand < 32/100 - 18/100 * c.u.baseline_risk_score)

/-- `default_p = np.clip(0.06 + 0.45*risk + 0.0005*amount +
(0.02 if instant_opt_in else 0), 0.01, 0.45)`. -/
def default_p (c : LoanCtx) : ℚ :=
  clip (6/100 + 45/100 * c.u.baseline_risk_score + 5/10000 * amount c +
    (if instant_opt_in c then 2/100 else 0)) (1/100) (45/100)

/-- `defaulted = approved and (np.random.rand() < default_p)`. -/
def defaulted (c : LoanCtx) : Bool :=
  approved c && decide (c.d.default_rand < default_p c)

/-- `late_days`: 0 initially; `max(0, int(normal(1.4,2.0)))` on the
repaid branch, `int(normal(20,7))` on the default branch. -/
def late_days (c : LoanCtx) : ℤ :=
  if approved c then
    if (disbursed_at c).isSome then
      if !defaulted c then max 0 c.d.late_draw else c.d.late_default_draw
    else 0
  else 0

/-- `repaid_at = disbursed_at + timedelta(days=14+late_days)` on the
repaid branch, absent otherwise. -/
def repaid_at (c : LoanCtx) : Option ℚ :=
  if approved c && (disbursed_at c).isSome && !defaulted c then
    (disbursed_at c).map (fun t => t + ((14 + max 0 c.d.late_draw : ℤ) : ℚ))
  else none

/-- The sequentially-assigned `status`:
requested → approved → disbursed → repaid/default. -/
def status (c : LoanCtx) : String :=
  if approved c then
    if (disbursed_at c).isSome then
      if !defaulted c then "repaid" else "default"
    else "approved"
  else "requested"

/-- `principal_repaid = amount` on the repaid branch, else 0. -/
def principal_repaid (c : LoanCtx) : ℚ :=
  if approved c && (disbursed_at c).isSome && !defaulted c then amount c
  else 0

/-- `writeoff = round(amount * uniform(0.6, 0.95), 2)` on the default
branch, else 0. -/
def writeoff (c : LoanCtx) : ℚ :=
  if approved c && (disbursed_at c).isSome && defaulted c then
    round2 (amount c * c.d.writeoff_frac)
  else 0

/-- One row of `loans.csv`. -/
structure Loan where
  loan_id : String
  user_id : ℕ
  requested_at : ℚ
  approved_at : Option ℚ
  disbursed_at : Option ℚ
  due_date : Option ℤ
  repaid_at : Option ℚ
  amount : ℚ
  fee : ℚ
  tip_amount : ℚ
  instant_transfer_fee : ℚ
  status : String
  late_days : ℤ
  chargeoff_flag : ℕ
  autopay_enrolled : ℕ
  principal_repaid : ℚ
  writeoff_amount : ℚ
  price_variant : String
  tip_variant : String
  deriving DecidableEq, Inhabited

/-- The body of one `for i in range(n_loans)` iteration: `none` when the
request timestamp falls outside the simulation window (the `continue`),
otherwise the emitted row. -/
def loanRecord (c : LoanCtx) : Option Loan :=
  if startDate ≤ requested_at c ∧ requested_at c ≤ endDate then
    some
      { loan_id := "L" ++ toString c.u.user_id ++ "-" ++ toString (c.i + 1),
        user_id := c.u.user_id,
        requested_at := requested_at c,
        approved_at := approved_at c,
        disbursed_at := disbursed_at c,
        due_date := due_date c,
        repaid_at := repaid_at c,
        amount := round2 (amount c),
        fee := round2 (fee c),
        tip_amount := round2 (tip c),
        instant_transfer_fee := round2 (instant_fee c),
        status := status c,
        late_days := late_days c,
        chargeoff_flag := if status c = "default" then 1 else 0,
        autopay_enrolled := if c.d.autopay_rand < 62/100 then 1 else 0,
        principal_repaid := round2 (principal_repaid c),
        writeoff_amount := writeoff c,
        price_variant := c.vp,
        tip_variant := c.vt }
  else none

/-- `assign = [a for a in assignments if a["user_id"]==u["user_id"]]`. -/
def assign (u : UserRow) (assignments : List Assignment) : List Assignment :=
  assignments.filter (fun a => a.user_id = u.user_id)

/-- `v_price = next((a["variant"] for a in assign if
a["experiment_name"]=="PriceTest_2025Q2"), "A")`. -/
def v_price (u : UserRow) (assignments : List Assignment) : String :=
  (((assign u assignments).find?
      (fun a => a.experiment_name = "PriceTest_2025Q2")).map
    Assignment.variant).getD "A"

/-- `v_tip = next((a["variant"] for a in assign if
a["experiment_name"]=="TipPrompt_2025Q2"), "control")`. -/
def v_tip (u : UserRow) (assignments : List Assignment) : String :=
  (((assign u assignments).find?
      (fun a => a.experiment_name = "TipPrompt_2025Q2")).map
    Assignment.variant).getD "control"

/-- `loan_rows_for_user`: Poisson count `n_loans`, early return on zero,
the linear scan of `assignments` for the user's two experiment variants
(defaulting to `"A"` / `"control"`), then the loan loop. -/
def loan_rows_for_user (u : UserRow) (assignments : List Assignment)
    (n_loans : ℕ) (draws : ℕ → LoanDraws) : List Loan :=
  if n_loans = 0 then []
  else
    (List.range n_loans).filterMap
      (fun i => loanRecord
        ⟨u, v_price u assignments, v_tip u assignments, i, draws i⟩)

/-- C3: for every emitted loan, `status = "repaid"` implies
`approved_at`, `disbursed_at`, `repaid_at` all present and
`repaid_at ≥ disbursed_at`; `status = "default"` implies `disbursed_at`
present and `repaid_at` absent; `status = "requested"` implies
`approved_at` absent. -/
theorem loan_status_timestamps (c : LoanCtx) (l : Loan)
    (h : loanRecord c = some l) :
    (l.status = "repaid" → l.approved_at.isSome ∧ l.disbursed_at.isSome ∧
      l.repaid_at.isSome ∧ l.disbursed_at.getD 0 ≤ l.repaid_at.getD 0) ∧
    (l.status = "default" → l.disbursed_at.isSome ∧ l.repaid_at = none) ∧
    (l.status = "requested" → l.approved_at = none) := by
  unfold loanRecord at h
  split at h
  · obtain rfl : _ = l := Option.some.inj h
    by_cases ha : approved c
    · by_cases hd : defaulted c
      · simp [status, approved_at, disbursed_at, repaid_at, ha, hd]
      · simp [status, approved_at, disbursed_at, repaid_at, ha, hd]
        have h0 : (0:ℚ) ≤ 0 ⊔ (c.d.late_draw : ℚ) := le_max_left 0 _
        linarith
    · simp [status, approved_at, ha]
  · exact absurd h (by simp)

/-- Concrete draws producing a repaid loan: user with risk 0 on iOS,
approval rand 0, no tip, no opt-in, no default, zero delays. -/
def c3Ctx : LoanCtx :=
  ⟨⟨1, 0, "ios", 0⟩, "A", "control", 0,
   { e1 := 0, e2 := 7, amount_draw := 140, approve_rand := 0,
     approve_delay := 0, disburse_delay := 0, fee_noise := 0,
     instant_choice := 0, tip_rand := 1, tip_choice := 1, instant_rand := 1,
     default_rand := 1, late_draw := 0, late_default_draw := 0,
     writeoff_frac := 3/4, autopay_rand := 1 }⟩

/-- The loan those draws emit. -/
def c3Loan : Loan := (loanRecord c3Ctx).getD default

unseal Rat.mul Rat.inv Rat.add Rat.sub in
/-- Witness for C3 at the concrete repaid loan `c3Loan`. -/
theorem loan_status_timestamps_witness :
    c3Loan.approved_at.isSome ∧ c3Loan.disbursed_at.isSome ∧
      c3Loan.repaid_at.isSome ∧
      c3Loan.disbursed_at.getD 0 ≤ c3Loan.repaid_at.getD 0 :=
  (loan_status_timestamps c3Ctx c3Loan (by decide)).1 (by decide)

/-! ### Helper lemmas about cent-rounding and clipping -/

theorem round2_intCast (n : ℤ) : round2 (n : ℚ) = n := by
  rw [round2_eq, show (100:ℚ) * n = ((100 * n : ℤ) : ℚ) by push_cast; ring,
    round_intCast]
  push_cast
  ring

theorem round2_zero : round2 0 = 0 := by
  simpa using round2_intCast 0

/-- `round2` of a whole number of cents is itself. -/
theorem round2_cents (k : ℤ) : round2 ((k : ℚ) / 100) = (k : ℚ) / 100 := by
  rw [round2_eq, show (100:ℚ) * ((k:ℚ)/100) = ((k:ℤ):ℚ) by ring, round_intCast]

/-- `round2` is idempotent. -/
theorem round2_round2 (x : ℚ) : round2 (round2 x) = round2 x := by
  rw [round2_eq (x := x)]
  exact round2_cents _

theorem round2_mono {x y : ℚ} (h : x ≤ y) : round2 x ≤ round2 y := by
  rw [round2_eq, round2_eq]
  have hf : round (100 * x) ≤ round (100 * y) := by
    rw [round_eq, round_eq]
    exact Int.floor_mono (by linarith)
  exact div_le_div_of_nonneg_right (by exact_mod_cast hf) (by norm_num)

/-- A value rounding to 0 cents is below half a cent. -/
theorem lt_of_round2_eq_zero {y : ℚ} (h : round2 y = 0) : y < 1/200 := by
  rw [round2_eq, div_eq_zero_iff] at h
  have hz : round (100 * y) = 0 := by
    rcases h with h | h
    · exact_mod_cast h
    · norm_num at h
  rw [round_eq, Int.floor_eq_zero_iff] at hz
  have := hz.2
  simp only [Set.mem_Ico] at hz
  linarith [hz.2]

theorem le_clip {x lo hi : ℚ} (h : lo ≤ hi) : lo ≤ clip x lo hi :=
  le_min (le_max_right x lo) h

theorem clip_le (x lo hi : ℚ) : clip x lo hi ≤ hi := min_le_right _ _

/-- C7: for every emitted loan, approval implies a disbursement timestamp
(the approved-but-never-disbursed state is unreachable), and the final
status is never `"approved"`. -/
theorem approved_implies_disbursed (c : LoanCtx) (l : Loan)
    (h : loanRecord c = some l) :
    (l.approved_at.isSome → l.disbursed_at.isSome) ∧ l.status ≠ "approved" := by
  unfold loanRecord at h
  split at h
  · obtain rfl : _ = l := Option.some.inj h
    by_cases ha : approved c
    · constructor
      · intro _
        simp [disbursed_at, approved_at, ha]
      · by_cases hd : defaulted c <;>
          simp [status, approved_at, disbursed_at, ha, hd]
    · simp [status, approved_at, disbursed_at, ha]
  · exact absurd h (by simp)

/-- Concrete draws producing an approved loan (risk 0, iOS, approval
rand 0); the loan defaults. -/
def c7Ctx : LoanCtx :=
  ⟨⟨2, 10, "ios", 0⟩, "A", "control", 0,
   { e1 := 5, e2 := 7, amount_draw := 200, approve_rand := 0,
     approve_delay := 12, disburse_delay := 6, fee_noise := 0,
     instant_choice := 0, tip_rand := 1, tip_choice := 1, instant_rand := 1,
     default_rand := 0, late_draw := 0, late_default_draw := 25,
     writeoff_frac := 7/10, autopay_rand := 0 }⟩

/-- The loan those draws emit. -/
def c7Loan : Loan := (loanRecord c7Ctx).getD default

unseal Rat.mul Rat.inv Rat.add Rat.sub in
/-- Witness for C7 at the concrete approved loan `c7Loan`. -/
theorem approved_implies_disbursed_witness :
    c7Loan.disbursed_at.isSome = true :=
  (approved_implies_disbursed c7Ctx c7Loan (by decide)).1 (by decide)

/-- From a final status of `"requested"`, the approval draw failed. -/
theorem not_approved_of_status_requested (c : LoanCtx)
    (hs : status c = "requested") : approved c = false := by
  by_contra hc
  rw [Bool.not_eq_false] at hc
  simp only [status, hc, if_true] at hs
  split_ifs at hs <;> simp_all

/-- C4 (amended): for a loan whose approval draw failed
(`status = "requested"`), the outcome monetary fields `tip_amount`,
`principal_repaid` and `writeoff_amount` are zero, but `amount` is the
clipped draw (always in [40, 350], hence nonzero), and `fee` /
`instant_transfer_fee` follow the price variant regardless of approval
(zero when the variant is "A"). -/
theorem requested_loan_monetary_fields (c : LoanCtx) (l : Loan)
    (h : loanRecord c = some l) (hs : l.status = "requested") :
    l.tip_amount = 0 ∧ l.principal_repaid = 0 ∧ l.writeoff_amount = 0 ∧
    40 ≤ l.amount ∧ l.amount ≤ 350 ∧
    (l.price_variant = "A" → l.fee = 0 ∧ l.instant_transfer_fee = 0) := by
  unfold loanRecord at h
  split at h
  · obtain rfl : _ = l := Option.some.inj h
    have ha : approved c = false := not_approved_of_status_requested c hs
    refine ⟨?_, ?_, ?_, ?_, ?_, ?_⟩
    · simp [tip, ha, round2_zero]
    · simp [principal_repaid, ha, round2_zero]
    · simp [writeoff, ha]
    · have h40 : (40:ℚ) ≤ amount c := le_clip (by norm_num)
      calc (40:ℚ) = round2 ((40:ℤ):ℚ) := by rw [round2_intCast]; norm_num
        _ ≤ round2 (amount c) := round2_mono (by exact_mod_cast h40)
    · have h350 : amount c ≤ 350 := clip_le _ _ _
      calc round2 (amount c) ≤ round2 ((350:ℤ):ℚ) := round2_mono
            (by exact_mod_cast h350)
        _ = 350 := by rw [round2_intCast]; norm_num
    · intro hA
      have hA' : c.vp = "A" := hA
      constructor
      · simp [fee, hA', round2_zero]
      · simp [instant_fee, hA', round2_zero]
  · exact absurd h (by simp)

/-- Concrete draws for the C4 counterexample: variant "B", risk-1 Android
user, approval rand 0.9 (approval probability 0.22, so not approved),
amount draw 140, fee noise 0.6, instant-fee choice 1.99. -/
def c4Ctx : LoanCtx :=
  ⟨⟨3, 0, "android", 1⟩, "B", "control", 0,
   { e1 := 0, e2 := 7, amount_draw := 140, approve_rand := 9/10,
     approve_delay := 0, disburse_delay := 0, fee_noise := 6/10,
     instant_choice := 199/100, tip_rand := 1, tip_choice := 1,
     instant_rand := 1, default_rand := 1, late_draw := 0,
     late_default_draw := 0, writeoff_frac := 3/4, autopay_rand := 1 }⟩

unseal Rat.mul Rat.inv Rat.add Rat.sub in
/-- C4 counterexample: `c4Ctx` emits a loan with `status = "requested"`
whose monetary fields `amount`, `fee` and `instant_transfer_fee` are
140.00, 2.00 and 1.99 — not zero/absent. -/
theorem requested_loan_nonzero_money :
    (loanRecord c4Ctx).map Loan.status = some "requested" ∧
    (loanRecord c4Ctx).map Loan.amount = some 140 ∧ (140 : ℚ) ≠ 0 ∧
    (loanRecord c4Ctx).map Loan.fee = some 2 ∧ (2 : ℚ) ≠ 0 ∧
    (loanRecord c4Ctx).map Loan.instant_transfer_fee = some (199/100) ∧
    (199/100 : ℚ) ≠ 0 := by
  decide

/-- Concrete requested, variant-"A" loan for the C4 witness. -/
def c4Ctx2 : LoanCtx :=
  ⟨⟨3, 0, "android", 1⟩, "A", "control", 0,
   { e1 := 0, e2 := 7, amount_draw := 140, approve_rand := 9/10,
     approve_delay := 0, disburse_delay := 0, fee_noise := 6/10,
     instant_choice := 199/100, tip_rand := 1, tip_choice := 1,
     instant_rand := 1, default_rand := 1, late_draw := 0,
     late_default_draw := 0, writeoff_frac := 3/4, autopay_rand := 1 }⟩

/-- The loan `c4Ctx2` emits. -/
def c4Loan : Loan := (loanRecord c4Ctx2).getD default

unseal Rat.mul Rat.inv Rat.add Rat.sub in
/-- Witness for C4's amended theorem at the concrete input `c4Ctx2`. -/
theorem requested_loan_monetary_fields_witness :
    c4Loan.tip_amount = 0 ∧ c4Loan.principal_repaid = 0 ∧
      c4Loan.writeoff_amount = 0 ∧ c4Loan.fee = 0 ∧
      c4Loan.instant_transfer_fee = 0 :=
  have T := requested_loan_monetary_fields c4Ctx2 c4Loan (by decide) (by decide)
  ⟨T.1, T.2.1, T.2.2.1, (T.2.2.2.2.2 (by decide)).1, (T.2.2.2.2.2 (by decide)).2⟩

/-- C5 (amended): pricing is fully determined by the price variant — for
variant "A" both `fee` and `instant_transfer_fee` are 0; for variant "B"
the recorded `fee` is the cent-rounding of the clipped draw
`clip(0.01·amount + fee_noise, 0, 6)` (the counterexample shows equality
to the unrounded clipped draw fails), the recorded
`instant_transfer_fee` comes from the discrete set {0, 1.99, 2.99}, and a
zero fee forces the raw draw below half a cent (the floor-at-zero
region). -/
theorem pricing_by_variant (c : LoanCtx) (l : Loan)
    (h : loanRecord c = some l)
    (hch : c.d.instant_choice = 0 ∨ c.d.instant_choice = 199/100 ∨
      c.d.instant_choice = 299/100) :
    (c.vp = "A" → l.fee = 0 ∧ l.instant_transfer_fee = 0) ∧
    (c.vp = "B" →
      l.fee = round2 (clip (1/100 * amount c + c.d.fee_noise) 0 6) ∧
      (l.instant_transfer_fee = 0 ∨ l.instant_transfer_fee = 199/100 ∨
        l.instant_transfer_fee = 299/100) ∧
      (l.fee = 0 → 1/100 * amount c + c.d.fee_noise < 1/200)) := by
  unfold loanRecord at h
  split at h
  · obtain rfl : _ = l := Option.some.inj h
    constructor
    · intro hA
      have hA' : c.vp = "A" := hA
      exact ⟨by simp [fee, hA', round2_zero], by simp [instant_fee, hA', round2_zero]⟩
    · intro hB
      have hB' : c.vp = "B" := hB
      have hBA : ¬ (c.vp = "A") := by rw [hB']; simp
      refine ⟨?_, ?_, ?_⟩
      · show round2 (fee c) = _
        rw [fee, if_neg hBA, round2_round2]
      · show round2 (instant_fee c) = 0 ∨ _ ∨ _
        rw [instant_fee, if_neg hBA, round2_round2]
        rcases hch with hc0 | hc1 | hc2
        · exact Or.inl (by rw [hc0, round2_zero])
        · refine Or.inr (Or.inl ?_)
          rw [hc1, show (199/100 : ℚ) = ((199:ℤ):ℚ)/100 by norm_num,
            round2_cents]
        · refine Or.inr (Or.inr ?_)
          rw [hc2, show (299/100 : ℚ) = ((299:ℤ):ℚ)/100 by norm_num,
            round2_cents]
      · intro h0
        have h0' : round2 (fee c) = 0 := h0
        rw [fee, if_neg hBA, round2_round2] at h0'
        have hlt := lt_of_round2_eq_zero h0'
        by_contra hge
        push_neg at hge
        have : (1/200 : ℚ) ≤ clip (1/100 * amount c + c.d.fee_noise) 0 6 :=
          le_min (le_trans hge (le_max_left _ _)) (by norm_num)
        linarith
  · exact absurd h (by simp)

/-- Concrete draws for the C5 counterexample and witness: variant "B",
amount draw 140 (so amount 140), fee noise 0.123, giving a raw fee draw
of 1.523 which is recorded as 1.52. -/
def c5Ctx : LoanCtx :=
  ⟨⟨4, 0, "android", 1⟩, "B", "control", 0,
   { e1 := 0, e2 := 7, amount_draw := 140, approve_rand := 9/10,
     approve_delay := 0, disburse_delay := 0, fee_noise := 123/1000,
     instant_choice := 199/100, tip_rand := 1, tip_choice := 1,
     instant_rand := 1, default_rand := 1, late_draw := 0,
     late_default_draw := 0, writeoff_frac := 3/4, autopay_rand := 1 }⟩

/-- The loan `c5Ctx` emits. -/
def c5Loan : Loan := (loanRecord c5Ctx).getD default

unseal Rat.mul Rat.inv Rat.add Rat.sub in
/-- C5 counterexample: for the variant-"B" loan of `c5Ctx` the recorded
fee is 1.52, while the clipped draw `clip(0.01·amount + noise, 0, 6)` is
1.523 — the fee equals the cent-rounding of the clipped draw, not the
clipped draw itself. -/
theorem pricing_fee_not_exact_clip :
    (loanRecord c5Ctx).map Loan.fee = some (152/100) ∧
    clip (1/100 * amount c5Ctx + c5Ctx.d.fee_noise) 0 6 = 1523/1000 ∧
    (152/100 : ℚ) ≠ 1523/1000 := by
  decide

unseal Rat.mul Rat.inv Rat.add Rat.sub in
/-- Witness for C5's amended theorem at the concrete input `c5Ctx`. -/
theorem pricing_by_variant_witness :
    c5Loan.fee =
      round2 (clip (1/100 * amount c5Ctx + c5Ctx.d.fee_noise) 0 6) ∧
    (c5Loan.instant_transfer_fee = 0 ∨
      c5Loan.instant_transfer_fee = 199/100 ∨
      c5Loan.instant_transfer_fee = 299/100) :=
  have T := pricing_by_variant c5Ctx c5Loan (by decide)
    (Or.inr (Or.inl (by decide)))
  ⟨(T.2 (by decide)).1, (T.2 (by decide)).2.1⟩

/-- C8: the realized approval, tip and default probabilities used in the
Bernoulli draws lie within their clamp bands [0.05, 0.95], [0.01, 0.4]
and [0.01, 0.45] — for every context, in particular whenever the risk
score is in [0, 1]. -/
theorem probability_clamp_bands (c : LoanCtx) :
    (5/100 ≤ approve_p c ∧ approve_p c ≤ 95/100) ∧
    (1/100 ≤ tip_prob c ∧ tip_prob c ≤ 4/10) ∧
    (1/100 ≤ default_p c ∧ default_p c ≤ 45/100) :=
  ⟨⟨le_max_left _ _, max_le (by norm_num) (min_le_left _ _)⟩,
   ⟨le_clip (by norm_num), clip_le _ _ _⟩,
   ⟨le_clip (by norm_num), clip_le _ _ _⟩⟩

/-- C9: a loan whose derived request timestamp falls outside the closed
simulation window produces no record at all; every emitted loan's
`requested_at` lies within the window; and the emitted loan count is at
most the Poisson draw `n`. -/
theorem out_of_window_dropped (u : UserRow) (vp vt : String)
    (assigns : List Assignment) (n : ℕ) (draws : ℕ → LoanDraws) :
    (∀ i : ℕ, ¬(startDate ≤ requested_at ⟨u, vp, vt, i, draws i⟩ ∧
        requested_at ⟨u, vp, vt, i, draws i⟩ ≤ endDate) →
      loanRecord ⟨u, vp, vt, i, draws i⟩ = none) ∧
    (∀ l ∈ loan_rows_for_user u assigns n draws,
      startDate ≤ l.requested_at ∧ l.requested_at ≤ endDate) ∧
    (loan_rows_for_user u assigns n draws).length ≤ n := by
  refine ⟨fun i hni => ?_, fun l hl => ?_, ?_⟩
  · unfold loanRecord
    rw [if_neg hni]
  · unfold loan_rows_for_user at hl
    split at hl
    · simp at hl
    · rw [List.mem_filterMap] at hl
      obtain ⟨i, -, hi⟩ := hl
      unfold loanRecord at hi
      split at hi
      next hw =>
        obtain rfl : _ = l := Option.some.inj hi
        exact hw
      next =>
        exact Option.noConfusion hi
  · unfold loan_rows_for_user
    split
    · simp
    · calc ((List.range n).filterMap _).length ≤ (List.range n).length :=
          List.length_filterMap_le _ _
        _ = n := List.length_range n

/-- Draws whose request-gap draw (300 days) puts the request past
2025-07-31. -/
def c9Draws : LoanDraws :=
  { e1 := 300, e2 := 7, amount_draw := 140, approve_rand := 1,
    approve_delay := 0, disburse_delay := 0, fee_noise := 0,
    instant_choice := 0, tip_rand := 1, tip_choice := 1, instant_rand := 1,
    default_rand := 1, late_draw := 0, late_default_draw := 0,
    writeoff_frac := 3/4, autopay_rand := 1 }

unseal Rat.mul Rat.inv Rat.add Rat.sub in
/-- Witness for C9: the out-of-window request of `c9Draws` (day 300)
emits no record. -/
theorem out_of_window_dropped_witness :
    loanRecord ⟨⟨5, 0, "android", 0⟩, "A", "control", 0, c9Draws⟩ = none :=
  (out_of_window_dropped ⟨5, 0, "android", 0⟩ "A" "control" [] 1
    (fun _ => c9Draws)).1 0 (by decide)

/-- C10: two independent conditionals — a user with no PriceTest_2025Q2
assignment row gets the default price variant "A" (hence zero fee and
zero instant-transfer fee) on every emitted loan, and a user with no
TipPrompt_2025Q2 assignment row gets the default tip variant "control"
with zero tip uplift; each holds regardless of the user's other
assignments. -/
theorem unassigned_defaults (u : UserRow) (assigns : List Assignment)
    (n : ℕ) (draws : ℕ → LoanDraws) (l : Loan)
    (hl : l ∈ loan_rows_for_user u assigns n draws) :
    ((∀ a ∈ assigns, a.user_id = u.user_id →
        a.experiment_name ≠ "PriceTest_2025Q2") →
      l.price_variant = "A" ∧ l.fee = 0 ∧ l.instant_transfer_fee = 0) ∧
    ((∀ a ∈ assigns, a.user_id = u.user_id →
        a.experiment_name ≠ "TipPrompt_2025Q2") →
      l.tip_variant = "control" ∧ tip_uplift l.tip_variant = 0) := by
  unfold loan_rows_for_user at hl
  split at hl
  · simp at hl
  · rw [List.mem_filterMap] at hl
    obtain ⟨i, -, hi⟩ := hl
    unfold loanRecord at hi
    split at hi
    next =>
      obtain rfl : _ = l := Option.some.inj hi
      constructor
      · intro hp
        have hfp : ((assign u assigns).find?
            (fun a => a.experiment_name = "PriceTest_2025Q2")) = none := by
          rw [List.find?_eq_none]
          intro a ha
          have hmem := List.mem_filter.mp ha
          have huid : a.user_id = u.user_id := by simpa using hmem.2
          simpa using hp a hmem.1 huid
        have hvp : v_price u assigns = "A" := by
          rw [v_price, hfp]
          rfl
        refine ⟨hvp, ?_, ?_⟩
        · simp [fee, hvp, round2_zero]
        · simp [instant_fee, hvp, round2_zero]
      · intro ht
        have hft : ((assign u assigns).find?
            (fun a => a.experiment_name = "TipPrompt_2025Q2")) = none := by
          rw [List.find?_eq_none]
          intro a ha
          have hmem := List.mem_filter.mp ha
          have huid : a.user_id = u.user_id := by simpa using hmem.2
          simpa using ht a hmem.1 huid
        have hvt : v_tip u assigns = "control" := by
          rw [v_tip, hft]
          rfl
        exact ⟨hvt, by simp [tip_uplift, hvt]⟩
    next =>
      exact Option.noConfusion hi

/-- In-window draws for the C10 witness. -/
def c10Draws : LoanDraws :=
  { e1 := 0, e2 := 7, amount_draw := 140, approve_rand := 1,
    approve_delay := 0, disburse_delay := 0, fee_noise := 6/10,
    instant_choice := 199/100, tip_rand := 1, tip_choice := 1,
    instant_rand := 1, default_rand := 1, late_draw := 0,
    late_default_draw := 0, writeoff_frac := 3/4, autopay_rand := 1 }

/-- A user signing up on day 185 (2025-07-05): inside the
TipPrompt_2025Q2 window (90..195) but outside the PriceTest_2025Q2
window (73..180), so the user holds exactly one assignment. -/
def c10User : UserRow := ⟨6, 185, "android", 0⟩

/-- The single assignment row of `c10User`: TipPrompt_2025Q2 only. -/
def c10Assigns : List Assignment :=
  [⟨"6-TipPrompt_2025Q2", 6, "TipPrompt_2025Q2", "persuasive", 185⟩]

/-- The single loan emitted for `c10User` with draws `c10Draws`. -/
def c10Loan : Loan :=
  (loan_rows_for_user c10User c10Assigns 1 (fun _ => c10Draws)).headD
    default

unseal Rat.mul Rat.inv Rat.add Rat.sub in
/-- Witness for C10: `c10User` has a TipPrompt row but no PriceTest row,
and the no-PriceTest conditional alone already yields variant-"A" zero
pricing on the emitted loan (whose tip variant is "persuasive"). -/
theorem unassigned_defaults_witness :
    c10Loan.price_variant = "A" ∧ c10Loan.fee = 0 ∧
      c10Loan.instant_transfer_fee = 0 :=
  (unassigned_defaults c10User c10Assigns 1 (fun _ => c10Draws) c10Loan
    (by decide)).1 (by decide)

end Bree
